import Mathlib

/-!
# Verification of the degu frame-scheduling core

A shallow embedding of the repository's frame-scheduling core:

* `Raf` (src/raf/raf.ts) — the per-frame task scheduler, embedded as a pure
  state machine over `RafState` together with a `World` that models the
  platform frame source (`requestAnimationFrame` / `cancelAnimationFrame`).
* `ProgressWatcher` (src/dom/progress-watcher.ts) — the range/point watcher.
* `RafProgress` (the progress-easing engine) — the per-tick easing, rounding
  and auto-stop logic.
* `VectorDomTimeline` — the keyframe storyboard compiler/resolver.  Its
  implementation file is not part of the sources here (only its test is), so
  those definitions are modelled from the specification.

Times and numeric values are rationals (`ℚ`); callbacks are identified by
numeric ids, and a callback that may throw is modelled by a `throws` flag.
Callbacks are treated as opaque consumers: they do not re-enter the
scheduler.
-/

set_option maxRecDepth 4000

namespace Degu

/-- The platform frame source: the list of pending frame-request handles
(in request order) and the next fresh handle. -/
structure World where
  pending : List Nat
  nextHandle : Nat
deriving Repr, DecidableEq

/-- The world before any frame was requested. -/
def World.empty : World := ⟨[], 0⟩

/-- A registered raf callback: an identity (JS compares callbacks by
reference equality; we use an id) and whether invoking it throws. -/
structure Task where
  id : Nat
  throws : Bool
deriving Repr, DecidableEq

/-- The mutable fields of the `Raf` class (src/raf/raf.ts), one field per
TS instance field, with JS numbers as `ℚ` and nullable fields as `Option`. -/
structure RafState where
  raf_ : Option Nat
  frame : Option ℚ
  lastUpdateTime : ℚ
  delta : ℚ
  fps : ℚ
  currentFps : ℚ
  isPlaying : Bool
  callbacks : List Task
  runCondition : Option Bool
  isRunningRaf : Bool
  elaspedTime : ℚ
  startTime : ℚ
deriving Repr, DecidableEq

/-- The `Raf` constructor: all numeric fields zero, nothing playing, and the
optional `rafLoop` argument registered via `watch` when present. -/
def newRaf (rafLoop : Option Task) : RafState :=
  { raf_ := none
    frame := none
    lastUpdateTime := 0
    delta := 0
    fps := 0
    currentFps := 0
    isPlaying := false
    callbacks := match rafLoop with | some t => [t] | none => []
    runCondition := none
    isRunningRaf := false
    elaspedTime := 0
    startTime := 0 }

namespace Raf

/-- `Raf.watch`: pushes the callback onto `callbacks`. -/
def watch (s : RafState) (t : Task) : RafState :=
  { s with callbacks := s.callbacks ++ [t] }

/-- `Raf.unwatch`: mirrors the source verbatim — the filter keeps the
callbacks for which `callback == callbackToRemove` holds. -/
def unwatch (s : RafState) (cid : Nat) : RafState :=
  { s with callbacks := s.callbacks.filter (fun cb => cb.id == cid) }

/-- `Raf.runWhen`: installs a run condition; we record the boolean value the
predicate evaluates to at tick time. -/
def runWhen (s : RafState) (b : Bool) : RafState :=
  { s with runCondition := some b }

/-- `Raf.setFps`. -/
def setFps (s : RafState) (fps : ℚ) : RafState :=
  { s with fps := fps }

/-- The `forEach` over `callbacks` inside `animationLoop_`: per callback the
run condition is consulted (`this.runCondition() && callCallback()`); an
invoked callback that throws aborts the iteration and the exception
propagates.  Returns the ids invoked (in order) and whether a throw
escaped. -/
def runTasks (rc : Option Bool) : List Task → List Nat × Bool
  | [] => ([], false)
  | t :: rest =>
    if rc.getD true then
      if t.throws then ([t.id], true)
      else
        let r := runTasks rc rest
        (t.id :: r.1, r.2)
    else runTasks rc rest

/-- The outcome of one synchronous call of `animationLoop_` (or of an
operation that calls it): the new instance state, the new world, the ids of
the callbacks that were invoked, and whether a callback's exception escaped
the call. -/
structure TickResult where
  s : RafState
  w : World
  invoked : List Nat
  threw : Bool
deriving Repr, DecidableEq

/-- Lines 302–329 of `animationLoop_`: the timing bookkeeping, fps
throttling, callback dispatch and `lastUpdateTime` update.  `tNow` is the
value `time.now()` returns at line 303/328 and `tAfter` the value it returns
after the callbacks ran (line 323). -/
def tickBody (s : RafState) (w : World) (tNow tAfter : ℚ) : TickResult :=
  if s.lastUpdateTime ≠ 0 then
    let elapsed := tNow - s.lastUpdateTime
    let fpsInterval : ℚ := if s.fps = 0 then 0 else 1000 / s.fps
    let s2 := { s with delta := elapsed
                       elaspedTime := s.elaspedTime + elapsed / 1000
                       currentFps := 1000 / elapsed }
    if fpsInterval < elapsed then
      let r := runTasks s2.runCondition s2.callbacks
      if r.2 then ⟨s2, w, r.1, true⟩
      else ⟨{ s2 with lastUpdateTime := tAfter }, w, r.1, false⟩
    else ⟨s2, w, [], false⟩
  else ⟨{ s with lastUpdateTime := tNow }, w, [], false⟩

/-- `Raf.animationLoop_`: returns at once when a frame is already in flight;
otherwise requests the next platform frame (recording its handle and setting
`isRunningRaf`) and runs the tick body. -/
def animationLoop (s : RafState) (w : World) (tNow tAfter : ℚ) : TickResult :=
  if s.isRunningRaf then ⟨s, w, [], false⟩
  else
    let h := w.nextHandle
    let w1 : World := ⟨w.pending ++ [h], h + 1⟩
    tickBody { s with raf_ := some h, isRunningRaf := true } w1 tNow tAfter

/-- `Raf.start`: no-op when already playing and not forced; otherwise records
`startTime`, runs `animationLoop_` synchronously and then flips `isPlaying`
(the flip is skipped when a callback's exception escapes the loop, since the
assignment follows the call in the source). -/
def start (s : RafState) (w : World) (force : Bool) (tNow tAfter : ℚ) :
    TickResult :=
  if !force && s.isPlaying then ⟨s, w, [], false⟩
  else
    let r := animationLoop { s with startTime := tNow } w tNow tAfter
    if r.threw then r
    else ⟨{ r.s with isPlaying := true }, r.w, r.invoked, r.threw⟩

/-- `Raf.stop`: flips `isPlaying` off, cancels the recorded frame request
(a no-op when the handle is absent or no longer pending) and clears
`isRunningRaf`. -/
def stop (s : RafState) (w : World) : RafState × World :=
  ({ s with isPlaying := false, isRunningRaf := false },
    match s.raf_ with
    | none => w
    | some h => ⟨w.pending.erase h, w.nextHandle⟩)

/-- Delivery of a pending platform frame `h` with timestamp `ts`: the rAF
callback records the frame, clears `isRunningRaf` and re-enters
`animationLoop_`. -/
def frameFire (s : RafState) (w : World) (h : Nat) (ts tNow tAfter : ℚ) :
    TickResult :=
  animationLoop { s with frame := some ts, isRunningRaf := false }
    ⟨w.pending.erase h, w.nextHandle⟩ tNow tAfter

end Raf

/-- The states an instance can reach from construction through its public
operations and platform frame deliveries. -/
inductive Reach : RafState → World → Prop where
  | init (t : Option Task) : Reach (newRaf t) World.empty
  | watch {s w} (t : Task) : Reach s w → Reach (Raf.watch s t) w
  | unwatch {s w} (cid : Nat) : Reach s w → Reach (Raf.unwatch s cid) w
  | setFps {s w} (f : ℚ) : Reach s w → Reach (Raf.setFps s f) w
  | runWhen {s w} (b : Bool) : Reach s w → Reach (Raf.runWhen s b) w
  | start {s w} (force : Bool) (t1 t2 : ℚ) : Reach s w →
      Reach (Raf.start s w force t1 t2).s (Raf.start s w force t1 t2).w
  | stop {s w} : Reach s w → Reach (Raf.stop s w).1 (Raf.stop s w).2
  | frame {s w} (h : Nat) (ts t1 t2 : ℚ) : Reach s w → h ∈ w.pending →
      Reach (Raf.frameFire s w h ts t1 t2).s (Raf.frameFire s w h ts t1 t2).w

/-- The single-request invariant: either a frame is in flight and the
pending queue holds exactly the recorded handle, or no frame is in flight
and the queue is empty. -/
def RafInv (s : RafState) (w : World) : Prop :=
  (s.isRunningRaf = true ∧ ∃ h, s.raf_ = some h ∧ w.pending = [h]) ∨
  (s.isRunningRaf = false ∧ w.pending = [])

/-! ## ProgressWatcher (src/dom/progress-watcher.ts) -/

/-- Modelled from the spec: `mathf.direction` (file src/mathf/mathf.ts is
absent from the sources) — the sign of the travel from `a` to `b`. -/
def mathf.direction (a b : ℚ) : ℤ :=
  if a < b then 1 else if b < a then -1 else 0

/-- Modelled from the spec: `mathf.isBetween` (file src/mathf/mathf.ts is
absent from the sources) — inclusive betweenness with unordered bounds. -/
def mathf.isBetween (x a b : ℚ) : Bool :=
  decide (min a b ≤ x ∧ x ≤ max a b)

/-- A registered watcher (`ProgressWatcherItem`): a point or a range, the
callback's identity, and the value its optional `runWhen` guard evaluates
to at dispatch time (`none` when no guard was supplied). -/
structure ProgressWatcherItem where
  range : Sum ℚ (ℚ × ℚ)
  cid : Nat
  runWhen : Option Bool
deriving Repr, DecidableEq

/-- The mutable fields of the `ProgressWatcher` class. -/
structure PWState where
  watchers : List ProgressWatcherItem
  currentProgress : ℚ
  direction : ℤ
deriving Repr, DecidableEq

/-- The `ProgressWatcher` constructor. -/
def newProgressWatcher : PWState := ⟨[], 0, 0⟩

namespace ProgressWatcher

/-- `ProgressWatcher.add`. -/
def add (s : PWState) (item : ProgressWatcherItem) : PWState :=
  { s with watchers := s.watchers ++ [item] }

/-- `ProgressWatcher.remove`: keeps the watchers whose callback is not the
one given (`watcher.callback !== callback`). -/
def remove (s : PWState) (cid : Nat) : PWState :=
  { s with watchers := s.watchers.filter (fun wt => ¬ (wt.cid = cid)) }

/-- The dispatch decision for one watcher inside `setProgress`, mirroring
the source: ranges test the new progress against the pair, points test the
watched value against the previous/new pair, and the `runWhen` branch calls
the callback on both the guard-true and the guard-false paths. -/
def fireFor (previousProgress currentProgress : ℚ) (d : ℤ)
    (wt : ProgressWatcherItem) : Option (Nat × ℚ × ℤ) :=
  let isBetween :=
    match wt.range with
    | .inr ab => mathf.isBetween currentProgress ab.1 ab.2
    | .inl x => mathf.isBetween x currentProgress previousProgress
  if isBetween then
    match wt.runWhen with
    | some g =>
      if g then some (wt.cid, currentProgress, d)
      else some (wt.cid, currentProgress, d)
    | none => some (wt.cid, currentProgress, d)
  else none

/-- `ProgressWatcher.setProgress`: updates the stored progress, updates the
stored direction only when the new direction is ±1, and dispatches to each
watcher in registration order.  Returns the new state and the list of
`(callback id, progress, direction)` invocations. -/
def setProgress (s : PWState) (p : ℚ) : PWState × List (Nat × ℚ × ℤ) :=
  let previousProgress := s.currentProgress
  let d := mathf.direction previousProgress p
  let newDirection := if d = -1 ∨ d = 1 then d else s.direction
  let s2 : PWState := ⟨s.watchers, p, newDirection⟩
  (s2, s2.watchers.filterMap (fireFor previousProgress p newDirection))

end ProgressWatcher

/-! ## RafProgress (the progress-easing engine)

The easing, rounding and stop logic of `RafProgress.rafLoop`,
`setCurrentProgress` and `setPrecision`.  The `mathf` numeric helpers the
class calls are absent from the sources and are modelled from the spec.
The engine's private `Raf` instance is abstracted to its playing flag:
`raf.start()` sets it, and the `raf.stop()` call inside `rafLoop` clears
it. -/

/-- Modelled from the spec: the default linear easing function
`(current, target, amount) -> number`. -/
def EASE.linear (c t a : ℚ) : ℚ := c + (t - c) * a

/-- Modelled from the spec: `mathf.ease` applies the easing function to
`(current, target, amount)`. -/
def mathf.ease (c t a : ℚ) (f : ℚ → ℚ → ℚ → ℚ) : ℚ := f c t a

/-- Powers of ten with an integer exponent, for decimal-digit rounding. -/
def pow10 (p : ℤ) : ℚ := (10 : ℚ) ^ p

/-- Modelled from the spec: `mathf.toFixed` rounds to `p` decimal digits. -/
def mathf.toFixed (v : ℚ) (p : ℤ) : ℚ := (round (v * pow10 p) : ℚ) / pow10 p

/-- Modelled from the spec: `mathf.floorToPrecision` floors to `p` decimal
digits. -/
def mathf.floorToPrecision (v : ℚ) (p : ℤ) : ℚ := (⌊v * pow10 p⌋ : ℚ) / pow10 p

/-- Modelled from the spec: `mathf.ceilToPrecision` ceils to `p` decimal
digits. -/
def mathf.ceilToPrecision (v : ℚ) (p : ℤ) : ℚ := (⌈v * pow10 p⌉ : ℚ) / pow10 p

/-- Modelled from the spec: `mathf.clampAsProgress` clamps to [0, 1]. -/
def mathf.clampAsProgress (v : ℚ) : ℚ := max 0 (min 1 v)

/-- The mutable fields of `RafProgress`: the progress state, the easing
function in effect, the precision, whether a per-instance callback
(`progressRafLoop`) was supplied, and the playing flag of its private
`Raf`. -/
structure RPState where
  currentProgress : ℚ
  targetProgress : ℚ
  easeAmount : ℚ
  easingFunction : ℚ → ℚ → ℚ → ℚ
  precision : ℤ
  hasCallback : Bool
  rafPlaying : Bool

/-- The `RafProgress` constructor: progress 0, ease amount 1, precision 5,
linear easing, raf not yet started. -/
def newRafProgress (hasCb : Bool) : RPState :=
  { currentProgress := 0
    targetProgress := 0
    easeAmount := 1
    easingFunction := EASE.linear
    precision := 5
    hasCallback := hasCb
    rafPlaying := false }

/-- The outcome of one `rafLoop` tick: the new engine state, the value the
`progressChange` event was emitted with, the argument the per-instance
callback was invoked with (`none` when no callback was supplied), and
whether `raf.stop()` was called. -/
structure RPTick where
  s : RPState
  emitted : ℚ
  callbackArg : Option ℚ
  stopCalled : Bool

namespace RafProgress

/-- `RafProgress.rafLoop`: ease toward the target, round to `precision`
digits, then floor (below 0.5) or ceil (at or above 0.5) to one digit less;
emit the new value, invoke the callback when present, and stop the raf when
the value equals the previous tick's value. -/
def rafLoop (s : RPState) : RPTick :=
  let previousProgress := s.currentProgress
  let c1 := mathf.ease s.currentProgress s.targetProgress s.easeAmount
    s.easingFunction
  let c2 := mathf.toFixed c1 s.precision
  let c3 :=
    if c2 < 1 / 2 then mathf.floorToPrecision c2 (s.precision - 1)
    else mathf.ceilToPrecision c2 (s.precision - 1)
  let stopCalled := decide (previousProgress = c3)
  { s := { s with currentProgress := c3
                  rafPlaying := if stopCalled then false else s.rafPlaying }
    emitted := c3
    callbackArg := if s.hasCallback then some c3 else none
    stopCalled := stopCalled }

/-- `RafProgress.setPrecision`. -/
def setPrecision (s : RPState) (n : ℤ) : RPState :=
  { s with precision := n }

end RafProgress

/-- The spec's per-tick value, stated in the spec's own words: apply
`easingFunction(current, target, easeAmount)`, round to `precision` decimal
digits, then floor to `precision - 1` digits when the rounded value is below
0.5 and ceil to `precision - 1` digits otherwise. -/
def specTickValue (f : ℚ → ℚ → ℚ → ℚ) (cur tgt amt : ℚ) (prec : ℤ) : ℚ :=
  let rounded := mathf.toFixed (f cur tgt amt) prec
  if rounded < 1 / 2 then mathf.floorToPrecision rounded (prec - 1)
  else mathf.ceilToPrecision rounded (prec - 1)

/-! ## The full engine: RafProgress composed with its private Raf

`RafProgress` owns a `Raf` whose single registered callback (installed by
the constructor) is `() => this.rafLoop()`.  Because `raf.start()` runs
`animationLoop_` synchronously, a call to `setCurrentProgress` can run a
whole engine tick before returning; the composite below threads the
callback's effects on the engine and on the raf itself (including the
mid-tick `raf.stop()` on stabilization) exactly where the source runs
them.  The engine never installs a `runWhen` condition on its raf, so the
callback dispatch consults none. -/

/-- The full `RafProgress` engine: the progress fields, its private `Raf`
instance, and the platform world. -/
structure EngineState where
  currentProgress : ℚ
  targetProgress : ℚ
  easeAmount : ℚ
  easingFunction : ℚ → ℚ → ℚ → ℚ
  precision : ℤ
  raf : RafState
  world : World

/-- The engine's progress fields viewed as an `RPState`, for running the
embedded `RafProgress.rafLoop` (the `hasCallback`/`rafPlaying` bookkeeping
fields are irrelevant to the tick's stored value and stop decision). -/
def EngineState.toRP (e : EngineState) : RPState :=
  { currentProgress := e.currentProgress
    targetProgress := e.targetProgress
    easeAmount := e.easeAmount
    easingFunction := e.easingFunction
    precision := e.precision
    hasCallback := false
    rafPlaying := e.raf.isPlaying }

/-- One execution of the engine's registered callback `() => this.rafLoop()`:
the tick stores the eased, rounded value, and when the new value equals the
previous one, `this.raf.stop()` runs — flipping `isPlaying` off, cancelling
the pending frame request and clearing `isRunningRaf` — mid-tick. -/
def engineRafLoop (e : EngineState) : EngineState :=
  let t := RafProgress.rafLoop e.toRP
  let e1 : EngineState := { e with currentProgress := t.s.currentProgress }
  if t.stopCalled then
    let sw := Raf.stop e1.raf e1.world
    { e1 with raf := sw.1, world := sw.2 }
  else e1

/-- `animationLoop_` of the engine's private raf: identical to
`Raf.animationLoop`/`Raf.tickBody` except that the `forEach` over the
callbacks is the single `engineRafLoop` application (the engine's raf has
exactly the one constructor-registered callback and no run condition), so
the callback's mutations of the engine and raf are threaded mid-tick.  The
`lastUpdateTime` update after the callbacks runs on the raf state the
callback left behind, as in the source. -/
def engineAnimationLoop (e : EngineState) (tNow tAfter : ℚ) : EngineState :=
  if e.raf.isRunningRaf then e
  else
    let h := e.world.nextHandle
    let w1 : World := ⟨e.world.pending ++ [h], h + 1⟩
    let s1 : RafState := { e.raf with raf_ := some h, isRunningRaf := true }
    let e1 : EngineState := { e with raf := s1, world := w1 }
    if s1.lastUpdateTime ≠ 0 then
      let elapsed := tNow - s1.lastUpdateTime
      let fpsInterval : ℚ := if s1.fps = 0 then 0 else 1000 / s1.fps
      let s2 : RafState :=
        { s1 with delta := elapsed
                  elaspedTime := s1.elaspedTime + elapsed / 1000
                  currentFps := 1000 / elapsed }
      let e2 : EngineState := { e1 with raf := s2 }
      if fpsInterval < elapsed then
        let e3 := engineRafLoop e2
        { e3 with raf := { e3.raf with lastUpdateTime := tAfter } }
      else e2
    else { e1 with raf := { s1 with lastUpdateTime := tNow } }

/-- `raf.start(force)` as invoked by the engine: no-op when playing and not
forced, otherwise records `startTime`, runs the animation loop synchronously
(possibly executing a full engine tick) and then flips `isPlaying` on —
after, and hence overriding, any `isPlaying := false` a mid-tick `stop()`
performed. -/
def engineStart (e : EngineState) (force : Bool) (tNow tAfter : ℚ) :
    EngineState :=
  if !force && e.raf.isPlaying then e
  else
    let e1 : EngineState := { e with raf := { e.raf with startTime := tNow } }
    let e2 : EngineState := engineAnimationLoop e1 tNow tAfter
    { e2 with raf := { e2.raf with isPlaying := true } }

/-- `RafProgress.setCurrentProgress` with the private raf modelled in full:
clamps the input, sets both current and target to it, sets the ease amount
to 1 and calls `this.raf.start()` (unforced) — which may run a synchronous
engine tick before returning. -/
def engineSetCurrentProgress (e : EngineState) (p tNow tAfter : ℚ) :
    EngineState :=
  let c := mathf.clampAsProgress p
  engineStart { e with currentProgress := c
                       targetProgress := c
                       easeAmount := 1 } false tNow tAfter

/-- The engine after `setCurrentProgress`'s three field assignments (current
and target set to `c`, ease amount 1), before the `raf.start()` call. -/
def engineWithProgress (e : EngineState) (c : ℚ) : EngineState :=
  { e with currentProgress := c, targetProgress := c, easeAmount := 1 }

/-- Delivery of a pending platform frame to the engine's raf. -/
def engineFrameFire (e : EngineState) (h : Nat) (ts tNow tAfter : ℚ) :
    EngineState :=
  engineAnimationLoop
    { e with raf := { e.raf with frame := some ts, isRunningRaf := false }
             world := ⟨e.world.pending.erase h, e.world.nextHandle⟩ }
    tNow tAfter

/-- The `RafProgress` constructor in composite form: progress 0, ease
amount 1, precision 5, linear easing, and a fresh raf whose single
callback is the `() => this.rafLoop()` closure. -/
def newEngine : EngineState :=
  { currentProgress := 0
    targetProgress := 0
    easeAmount := 1
    easingFunction := EASE.linear
    precision := 5
    raf := newRaf (some ⟨0, false⟩)
    world := World.empty }

/-! ## VectorDomTimeline (keyframe storyboard)

The file src/dom/vector-dom-timeline.ts is absent from the sources; only
its test (src/dom/vector-dom-timeline.spec.ts) is present.  The compiler
(`generateStoryboard`) and resolver
(`getStartAndEndTimelineFromStoryboard`) below are modelled from the spec's
§4.4 description. -/

/-- One entry of a compiled per-key track: a progress and the key's value
there. -/
structure TrackEntry where
  progress : ℚ
  value : ℚ
deriving Repr, DecidableEq

/-- An input keyframe: a progress and a sparse assignment of values to
keys. -/
structure Keyframe where
  progress : ℚ
  values : List (String × ℚ)
deriving Repr, DecidableEq

/-- The value a keyframe assigns to a key, when it assigns one. -/
def keyframeValue (kf : Keyframe) (k : String) : Option ℚ :=
  (kf.values.find? (fun kv => kv.1 == k)).map (fun kv => kv.2)

/-- Stable insertion (ascending by progress; an inserted entry goes before
entries of equal progress it was listed before). -/
def orderedInsert (e : TrackEntry) : List TrackEntry → List TrackEntry
  | [] => [e]
  | x :: xs =>
    if e.progress ≤ x.progress then e :: x :: xs else x :: orderedInsert e xs

/-- Stable sort of track entries, ascending by progress. -/
def sortTrack (l : List TrackEntry) : List TrackEntry :=
  l.foldr orderedInsert []

/-- The result of resolving a progress against a storyboard. -/
inductive ResolveResult where
  | ok (startEntry endEntry : TrackEntry)
  | unknownTrackKey
  | emptyTrack
  | outOfRange
deriving Repr, DecidableEq

namespace VectorDomTimeline

/-- Modelled from the spec: the compiled track of one key — the keyframes
that assign the key a value, sorted ascending by progress, with a
progress-0 entry (a copy of the earliest explicit value) and a progress-1
entry (a copy of the latest explicit value) synthesized when absent. -/
def trackForKey (k : String) (kfs : List Keyframe) : List TrackEntry :=
  let explicit := kfs.filterMap
    (fun kf => (keyframeValue kf k).map (fun v => TrackEntry.mk kf.progress v))
  let sorted := sortTrack explicit
  match sorted with
  | [] => []
  | first :: _ =>
    let lastE := sorted.getLast?.getD first
    let withZero :=
      if first.progress = 0 then sorted else ⟨0, first.value⟩ :: sorted
    if lastE.progress = 1 then withZero else withZero ++ [⟨1, lastE.value⟩]

/-- Modelled from the spec: `VectorDomTimeline.generateStoryboard` compiles
each tracked key to its dense track. -/
def generateStoryboard (keys : List String) (kfs : List Keyframe) :
    List (String × List TrackEntry) :=
  keys.map (fun k => (k, trackForKey k kfs))

/-- The scan for the bounding segment: starting from the head entry, return
the first adjacent pair whose second endpoint is at or past the progress,
so that an entry at exactly the queried progress closes the preceding
segment (and progress 0 opens the first one). -/
def findSegment (prev : TrackEntry) (p : ℚ) :
    List TrackEntry → ResolveResult
  | [] => .outOfRange
  | b :: rest => if p ≤ b.progress then .ok prev b else findSegment b p rest

/-- Modelled from the spec:
`VectorDomTimeline.getStartAndEndTimelineFromStoryboard` returns the
tightest bounding pair of adjacent track entries around the progress,
surfacing `unknownTrackKey` / `emptyTrack` for caller-input errors. -/
def getStartAndEndTimelineFromStoryboard
    (sb : List (String × List TrackEntry)) (k : String) (p : ℚ) :
    ResolveResult :=
  match sb.find? (fun e => e.1 == k) with
  | none => .unknownTrackKey
  | some e =>
    match e.2 with
    | [] => .emptyTrack
    | t0 :: rest => findSegment t0 p rest

end VectorDomTimeline

/-! ## Concrete scenarios used by the claim evaluations -/

/-- A scheduler with two callbacks from which the first is then
unwatched. -/
def unwatchScenario : RafState :=
  Raf.unwatch (Raf.watch (Raf.watch (newRaf none) ⟨1, false⟩) ⟨2, false⟩) 1

/-- A scheduler whose first callback throws and whose second is well
behaved, started at time 100. -/
def throwScenario : Raf.TickResult :=
  Raf.start (Raf.watch (Raf.watch (newRaf none) ⟨1, true⟩) ⟨2, false⟩)
    World.empty false 100 100

/-- The first platform frame of `throwScenario`, at time 116. -/
def throwScenarioFrame : Raf.TickResult :=
  Raf.frameFire throwScenario.s throwScenario.w 0 116 116 116

/-- A scheduler throttled to 10 fps with one callback, started at time
100. -/
def fpsScenario : Raf.TickResult :=
  Raf.start (Raf.setFps (newRaf (some ⟨1, false⟩)) 10) World.empty false
    100 100

/-- The first platform frame of `fpsScenario`, arriving with a delta of
exactly 100 ms — exactly the 1000/10 ms threshold. -/
def fpsScenarioFrame : Raf.TickResult :=
  Raf.frameFire fpsScenario.s fpsScenario.w 0 200 200 200

/-- A freshly constructed scheduler with one callback, started at time
100. -/
def firstFrameScenario : Raf.TickResult :=
  Raf.start (newRaf (some ⟨3, false⟩)) World.empty false 100 100

/-- The very first platform frame of `firstFrameScenario`, at time 116. -/
def firstFrameScenarioFrame : Raf.TickResult :=
  Raf.frameFire firstFrameScenario.s firstFrameScenario.w 0 116 116 116

/-- A mid-run scheduler state — playing, frame received, last tick at time
100 — whose second callback throws. -/
def throwState : RafState :=
  { raf_ := some 0
    frame := none
    lastUpdateTime := 100
    delta := 0
    fps := 0
    currentFps := 0
    isPlaying := true
    callbacks := [⟨7, false⟩, ⟨1, true⟩, ⟨2, false⟩]
    runCondition := none
    isRunningRaf := false
    elaspedTime := 0
    startTime := 100 }

/-- A mid-run scheduler state throttled to 10 fps with one callback. -/
def fpsState : RafState :=
  { raf_ := some 0
    frame := none
    lastUpdateTime := 100
    delta := 0
    fps := 10
    currentFps := 0
    isPlaying := true
    callbacks := [⟨1, false⟩]
    runCondition := none
    isRunningRaf := false
    elaspedTime := 0
    startTime := 100 }

/-- A range watcher on [0.2, 0.4] whose guard evaluates to false. -/
def guardedWatcherScenario : PWState :=
  ProgressWatcher.add newProgressWatcher ⟨.inr (1/5, 2/5), 9, some false⟩

/-- A progress value whose rounding at precision 5 changes it. -/
def unroundedProgress : ℚ := 123456 / 1000000

/-- A fresh engine right after `setCurrentProgress(0.123456)` called at
time 100 (the synchronous start tick only records `lastUpdateTime`). -/
def engineScenario : EngineState :=
  engineSetCurrentProgress newEngine unroundedProgress 100 100

/-- The first platform frame of `engineScenario`, at time 116 — the first
executed engine tick after the call. -/
def engineScenarioFrame : EngineState :=
  engineFrameFire engineScenario 0 116 116 116

/-- The worked example's keyframe list: keys `['alpha']`, keyframes
`[{progress: 0.2, alpha: 0}, {progress: 0.5}, {progress: 0.8,
alpha: 0.6}]`. -/
def exampleKeyframes : List Keyframe :=
  [⟨1/5, [("alpha", 0)]⟩, ⟨1/2, []⟩, ⟨4/5, [("alpha", 3/5)]⟩]

/-- The storyboard compiled from `exampleKeyframes`. -/
def exampleStoryboard : List (String × List TrackEntry) :=
  VectorDomTimeline.generateStoryboard ["alpha"] exampleKeyframes

/-! ## Lemmas -/

lemma tickBody_raf (s : RafState) (w : World) (t1 t2 : ℚ) :
    (Raf.tickBody s w t1 t2).s.isRunningRaf = s.isRunningRaf ∧
    (Raf.tickBody s w t1 t2).s.raf_ = s.raf_ ∧
    (Raf.tickBody s w t1 t2).w = w := by
  simp only [Raf.tickBody]
  repeat' split
  all_goals exact ⟨rfl, rfl, rfl⟩

lemma animationLoop_inv {s : RafState} {w : World} (t1 t2 : ℚ)
    (h : RafInv s w) :
    RafInv (Raf.animationLoop s w t1 t2).s (Raf.animationLoop s w t1 t2).w := by
  unfold Raf.animationLoop
  by_cases hr : s.isRunningRaf
  · simpa [hr] using h
  · rcases h with ⟨h1, _⟩ | ⟨_, h2⟩
    · simp [hr] at h1
    · rw [if_neg (by simp [hr])]
      have ht := tickBody_raf
        { s with raf_ := some w.nextHandle, isRunningRaf := true }
        ⟨w.pending ++ [w.nextHandle], w.nextHandle + 1⟩ t1 t2
      left
      refine ⟨by rw [ht.1], w.nextHandle, by rw [ht.2.1], ?_⟩
      rw [ht.2.2]
      simp [h2]

lemma reach_inv {s : RafState} {w : World} (h : Reach s w) : RafInv s w := by
  induction h with
  | init t => right; exact ⟨rfl, rfl⟩
  | watch t _ ih =>
      rcases ih with ⟨h1, hh⟩ | ⟨h1, h2⟩
      · exact Or.inl ⟨h1, hh⟩
      · exact Or.inr ⟨h1, h2⟩
  | unwatch cid _ ih =>
      rcases ih with ⟨h1, hh⟩ | ⟨h1, h2⟩
      · exact Or.inl ⟨h1, hh⟩
      · exact Or.inr ⟨h1, h2⟩
  | setFps f _ ih =>
      rcases ih with ⟨h1, hh⟩ | ⟨h1, h2⟩
      · exact Or.inl ⟨h1, hh⟩
      · exact Or.inr ⟨h1, h2⟩
  | runWhen b _ ih =>
      rcases ih with ⟨h1, hh⟩ | ⟨h1, h2⟩
      · exact Or.inl ⟨h1, hh⟩
      · exact Or.inr ⟨h1, h2⟩
  | start force t1 t2 _ ih =>
      rename_i s w _
      unfold Raf.start
      by_cases hp : (!force && s.isPlaying) = true
      · simpa [hp] using ih
      · rw [if_neg hp]
        have hinv : RafInv { s with startTime := t1 } w := by
          rcases ih with ⟨h1, hh, h2, h3⟩ | ⟨h1, h2⟩
          · exact Or.inl ⟨h1, hh, h2, h3⟩
          · exact Or.inr ⟨h1, h2⟩
        have := animationLoop_inv (s := { s with startTime := t1 })
          (w := w) t1 t2 hinv
        set r := Raf.animationLoop { s with startTime := t1 } w t1 t2 with hrdef
        by_cases hthrew : r.threw
        · simpa [hthrew] using this
        · rw [if_neg hthrew]
          rcases this with ⟨h1, hh, h2, h3⟩ | ⟨h1, h2⟩
          · exact Or.inl ⟨h1, hh, h2, h3⟩
          · exact Or.inr ⟨h1, h2⟩
  | stop _ ih =>
      rename_i s w _
      unfold Raf.stop
      rcases ih with ⟨_, hh, h2, h3⟩ | ⟨_, h2⟩
      · right
        refine ⟨rfl, ?_⟩
        rw [h2, h3]
        simp [List.erase_cons_head]
      · right
        refine ⟨rfl, ?_⟩
        cases hraf : s.raf_ with
        | none => simpa using h2
        | some h => simp [h2]
  | frame h ts t1 t2 _ hmem ih =>
      rename_i s w _
      rcases ih with ⟨_, hh, h2, h3⟩ | ⟨_, h2⟩
      · unfold Raf.frameFire
        apply animationLoop_inv
        right
        refine ⟨rfl, ?_⟩
        rw [h3] at hmem ⊢
        rcases List.mem_singleton.mp hmem with rfl
        simp [List.erase_cons_head]
      · rw [h2] at hmem
        simp at hmem

lemma runTasks_none_ok (cbs : List Task)
    (h : ∀ x ∈ cbs, x.throws = false) :
    Raf.runTasks none cbs = (cbs.map Task.id, false) := by
  induction cbs with
  | nil => rfl
  | cons t rest ih =>
      have ht : t.throws = false := h t (by simp)
      have hrest : ∀ x ∈ rest, x.throws = false := fun x hx => h x (by simp [hx])
      simp [Raf.runTasks, ht, ih hrest]

lemma runTasks_none_throwing (pre : List Task) (t : Task) (post : List Task)
    (hpre : ∀ x ∈ pre, x.throws = false) (ht : t.throws = true) :
    Raf.runTasks none (pre ++ t :: post) =
      (pre.map Task.id ++ [t.id], true) := by
  induction pre with
  | nil => simp [Raf.runTasks, ht]
  | cons a rest ih =>
      have ha : a.throws = false := hpre a (by simp)
      have hrest : ∀ x ∈ rest, x.throws = false :=
        fun x hx => hpre x (by simp [hx])
      simp [Raf.runTasks, ha, ih hrest]

lemma specTickValue_linear_one (c p : ℚ) (prec : ℤ) :
    specTickValue EASE.linear c p 1 prec =
      specTickValue EASE.linear p p 1 prec := by
  have h : EASE.linear c p 1 = EASE.linear p p 1 := by
    unfold EASE.linear; ring
  unfold specTickValue
  rw [h]

lemma engineRafLoop_keeps (e : EngineState) :
    (engineRafLoop e).targetProgress = e.targetProgress ∧
    (engineRafLoop e).easeAmount = e.easeAmount ∧
    (engineRafLoop e).easingFunction = e.easingFunction ∧
    (engineRafLoop e).precision = e.precision ∧
    (engineRafLoop e).currentProgress =
      specTickValue e.easingFunction e.currentProgress e.targetProgress
        e.easeAmount e.precision := by
  simp only [engineRafLoop]
  split <;> exact ⟨rfl, rfl, rfl, rfl, rfl⟩

lemma engineAnimationLoop_keeps (e : EngineState) (tNow tAfter : ℚ) :
    (engineAnimationLoop e tNow tAfter).targetProgress = e.targetProgress ∧
    (engineAnimationLoop e tNow tAfter).easeAmount = e.easeAmount ∧
    (engineAnimationLoop e tNow tAfter).easingFunction = e.easingFunction ∧
    (engineAnimationLoop e tNow tAfter).precision = e.precision ∧
    ((engineAnimationLoop e tNow tAfter).currentProgress =
        e.currentProgress ∨
      (engineAnimationLoop e tNow tAfter).currentProgress =
        specTickValue e.easingFunction e.currentProgress e.targetProgress
          e.easeAmount e.precision) := by
  simp only [engineAnimationLoop]
  repeat' split
  all_goals first
    | exact ⟨rfl, rfl, rfl, rfl, Or.inl rfl⟩
    | exact ⟨(engineRafLoop_keeps _).1, (engineRafLoop_keeps _).2.1,
        (engineRafLoop_keeps _).2.2.1, (engineRafLoop_keeps _).2.2.2.1,
        Or.inr (engineRafLoop_keeps _).2.2.2.2⟩

lemma engineStart_keeps (e : EngineState) (force : Bool) (tNow tAfter : ℚ) :
    (engineStart e force tNow tAfter).targetProgress = e.targetProgress ∧
    (engineStart e force tNow tAfter).easeAmount = e.easeAmount ∧
    (engineStart e force tNow tAfter).easingFunction = e.easingFunction ∧
    (engineStart e force tNow tAfter).precision = e.precision ∧
    ((engineStart e force tNow tAfter).currentProgress =
        e.currentProgress ∨
      (engineStart e force tNow tAfter).currentProgress =
        specTickValue e.easingFunction e.currentProgress e.targetProgress
          e.easeAmount e.precision) := by
  simp only [engineStart]
  split
  · exact ⟨rfl, rfl, rfl, rfl, Or.inl rfl⟩
  · have h := engineAnimationLoop_keeps
      { e with raf := { e.raf with startTime := tNow } } tNow tAfter
    exact ⟨h.1, h.2.1, h.2.2.1, h.2.2.2.1, h.2.2.2.2⟩

lemma engineRafLoop_settles (x : EngineState) (p : ℚ)
    (htar : x.targetProgress = p) (hamt : x.easeAmount = 1)
    (hf : x.easingFunction = EASE.linear)
    (hcur : x.currentProgress = specTickValue EASE.linear p p 1 x.precision) :
    (engineRafLoop x).raf.isPlaying = false := by
  have hnew : (RafProgress.rafLoop x.toRP).s.currentProgress =
      x.currentProgress := by
    have h1 : (RafProgress.rafLoop x.toRP).s.currentProgress =
        specTickValue x.easingFunction x.currentProgress x.targetProgress
          x.easeAmount x.precision := rfl
    rw [h1, hf, htar, hamt, specTickValue_linear_one, ← hcur]
  have hstop : (RafProgress.rafLoop x.toRP).stopCalled = true := by
    have h2 : x.toRP.currentProgress =
        (RafProgress.rafLoop x.toRP).s.currentProgress := by
      rw [hnew]; rfl
    exact decide_eq_true h2
  simp [engineRafLoop, hstop, Raf.stop]

lemma engineStart_playing (e : EngineState) (tNow tAfter : ℚ)
    (hp : e.raf.isPlaying = true) :
    engineStart e false tNow tAfter = e := by
  simp only [engineStart]
  rw [if_pos (by simp [hp])]

lemma engineStart_zero_time (e : EngineState) (tNow tAfter : ℚ)
    (h0 : e.raf.lastUpdateTime = 0) :
    (engineStart e false tNow tAfter).currentProgress =
      e.currentProgress := by
  simp only [engineStart, engineAnimationLoop]
  repeat' split
  all_goals simp_all

lemma engineStart_skip (e : EngineState) (tNow tAfter : ℚ)
    (hp : e.raf.isPlaying = false) (hr : e.raf.isRunningRaf = false)
    (hle : tNow - e.raf.lastUpdateTime ≤
      (if e.raf.fps = 0 then (0 : ℚ) else 1000 / e.raf.fps)) :
    (engineStart e false tNow tAfter).currentProgress =
      e.currentProgress := by
  simp only [engineStart, engineAnimationLoop]
  rw [if_neg (by simp [hp])]
  rw [if_neg (by simp [hr])]
  by_cases hlu : e.raf.lastUpdateTime = 0
  · rw [if_neg (by simp [hlu])]
  · rw [if_pos (by simpa using hlu)]
    rw [if_neg (not_lt.mpr hle)]

lemma engineStart_sync_exec (e : EngineState) (tNow tAfter : ℚ)
    (hp : e.raf.isPlaying = false) (hr : e.raf.isRunningRaf = false)
    (hlu : e.raf.lastUpdateTime ≠ 0)
    (hgt : (if e.raf.fps = 0 then (0 : ℚ) else 1000 / e.raf.fps) <
      tNow - e.raf.lastUpdateTime) :
    (engineStart e false tNow tAfter).currentProgress =
      specTickValue e.easingFunction e.currentProgress e.targetProgress
        e.easeAmount e.precision := by
  simp only [engineStart, engineAnimationLoop]
  rw [if_neg (by simp [hp])]
  rw [if_neg (by simp [hr])]
  rw [if_pos hlu]
  rw [if_pos hgt]
  exact (engineRafLoop_keeps _).2.2.2.2

lemma animationLoop_not_running (s : RafState) (w : World) (tNow tAfter : ℚ)
    (hrun : s.isRunningRaf = false) :
    Raf.animationLoop s w tNow tAfter =
      Raf.tickBody { s with raf_ := some w.nextHandle, isRunningRaf := true }
        ⟨w.pending ++ [w.nextHandle], w.nextHandle + 1⟩ tNow tAfter := by
  unfold Raf.animationLoop
  rw [if_neg (by simp [hrun])]

lemma tickBody_skip (s : RafState) (w : World) (tNow tAfter : ℚ)
    (hlu : s.lastUpdateTime ≠ 0)
    (hel : tNow - s.lastUpdateTime ≤
      (if s.fps = 0 then 0 else 1000 / s.fps)) :
    (Raf.tickBody s w tNow tAfter).invoked = [] ∧
    (Raf.tickBody s w tNow tAfter).s.lastUpdateTime = s.lastUpdateTime ∧
    (Raf.tickBody s w tNow tAfter).w = w ∧
    (Raf.tickBody s w tNow tAfter).threw = false := by
  simp only [Raf.tickBody]
  rw [if_pos hlu, if_neg (not_lt.mpr hel)]
  exact ⟨rfl, rfl, rfl, rfl⟩

lemma tickBody_exec (s : RafState) (w : World) (tNow tAfter : ℚ)
    (hlu : s.lastUpdateTime ≠ 0)
    (hel : (if s.fps = 0 then 0 else 1000 / s.fps) < tNow - s.lastUpdateTime)
    (hrc : s.runCondition = none)
    (hok : ∀ x ∈ s.callbacks, x.throws = false) :
    (Raf.tickBody s w tNow tAfter).invoked = s.callbacks.map Task.id ∧
    (Raf.tickBody s w tNow tAfter).s.lastUpdateTime = tAfter ∧
    (Raf.tickBody s w tNow tAfter).w = w ∧
    (Raf.tickBody s w tNow tAfter).threw = false := by
  have hr : Raf.runTasks s.runCondition s.callbacks =
      (s.callbacks.map Task.id, false) := by
    rw [hrc]; exact runTasks_none_ok s.callbacks hok
  simp only [Raf.tickBody]
  rw [if_pos hlu, if_pos hel, hr]
  exact ⟨rfl, rfl, rfl, rfl⟩

lemma tickBody_throw (s : RafState) (w : World) (tNow tAfter : ℚ)
    (pre : List Task) (t : Task) (post : List Task)
    (hlu : s.lastUpdateTime ≠ 0)
    (hel : (if s.fps = 0 then 0 else 1000 / s.fps) < tNow - s.lastUpdateTime)
    (hcb : s.callbacks = pre ++ t :: post)
    (hpre : ∀ x ∈ pre, x.throws = false)
    (ht : t.throws = true)
    (hrc : s.runCondition = none) :
    (Raf.tickBody s w tNow tAfter).invoked = pre.map Task.id ++ [t.id] ∧
    (Raf.tickBody s w tNow tAfter).threw = true ∧
    (Raf.tickBody s w tNow tAfter).s.callbacks = s.callbacks ∧
    (Raf.tickBody s w tNow tAfter).s.lastUpdateTime = s.lastUpdateTime ∧
    (Raf.tickBody s w tNow tAfter).w = w := by
  have hr : Raf.runTasks s.runCondition s.callbacks =
      (pre.map Task.id ++ [t.id], true) := by
    rw [hrc, hcb]; exact runTasks_none_throwing pre t post hpre ht
  simp only [Raf.tickBody]
  rw [if_pos hlu, if_pos hel, hr]
  exact ⟨rfl, rfl, rfl, rfl, rfl⟩

/-! ## Claim theorems -/

/-- C1: the claim fails on the code.  `unwatch` filters with
`callback == callbackToRemove`, so after registering callbacks 1 and 2 and
unwatching 1 the registry holds exactly the callback that was to be removed,
and the next executed tick invokes the removed callback 1 — not the
surviving callback 2 the claim promises. -/
theorem unwatch_keeps_only_removed :
    unwatchScenario.callbacks = [⟨1, false⟩] ∧
    (Raf.frameFire (Raf.start unwatchScenario World.empty false 100 100).s
      (Raf.start unwatchScenario World.empty false 100 100).w
      0 116 116 116).invoked = [1] := by
  constructor
  · rfl
  · norm_num [Raf.frameFire, Raf.animationLoop, Raf.tickBody, Raf.start,
      Raf.runTasks, Raf.unwatch, Raf.watch, newRaf, World.empty,
      unwatchScenario]

/-- C3: the claim fails on the code.  A range watcher on [0.2, 0.4] whose
`runWhen` guard evaluates to false still has its callback invoked on
`setProgress(0.3)` (the source's guard branch fires the callback on both
paths); the watcher does remain registered. -/
theorem guard_false_still_fires :
    (ProgressWatcher.setProgress guardedWatcherScenario (3/10)).2 =
      [(9, 3/10, 1)] ∧
    (ProgressWatcher.setProgress guardedWatcherScenario (3/10)).1.watchers =
      guardedWatcherScenario.watchers := by
  constructor
  · norm_num [ProgressWatcher.setProgress, ProgressWatcher.fireFor,
      ProgressWatcher.add, newProgressWatcher, guardedWatcherScenario,
      mathf.direction, mathf.isBetween, List.filterMap_cons,
      List.filterMap_nil]
  · rfl

/-- C5: each `rafLoop` tick stores as the new current progress exactly the
spec's three-step value: the easing function applied to
`(current, target, easeAmount)`, rounded to `precision` decimal digits, then
floored to `precision - 1` digits when the rounded value is below 0.5 and
ceiled to `precision - 1` digits otherwise. -/
theorem rafLoop_stores_spec_value (s : RPState) :
    (RafProgress.rafLoop s).s.currentProgress =
      specTickValue s.easingFunction s.currentProgress s.targetProgress
        s.easeAmount s.precision := rfl

/-- C7: every `rafLoop` tick emits the `progressChange` notification with
the newly stored progress, invokes the per-instance callback with that value
whenever one was supplied, and calls `raf.stop()` exactly when the new value
equals the previous tick's value. -/
theorem rafLoop_emits_and_stops_on_stability (s : RPState) :
    (RafProgress.rafLoop s).emitted =
      (RafProgress.rafLoop s).s.currentProgress ∧
    (s.hasCallback = true →
      (RafProgress.rafLoop s).callbackArg =
        some (RafProgress.rafLoop s).s.currentProgress) ∧
    ((RafProgress.rafLoop s).stopCalled = true ↔
      (RafProgress.rafLoop s).s.currentProgress = s.currentProgress) := by
  refine ⟨rfl, ?_, ?_⟩
  · intro h
    simp only [RafProgress.rafLoop, h, if_true]
  · simp only [RafProgress.rafLoop, decide_eq_true_eq]
    exact eq_comm

/-- C7 witness: on a fresh engine with a callback, the tick's callback
argument is the stored progress. -/
theorem rafLoop_emits_and_stops_on_stability_witness :
    (RafProgress.rafLoop (newRafProgress true)).callbackArg =
      some ((RafProgress.rafLoop (newRafProgress true)).s.currentProgress) :=
  (rafLoop_emits_and_stops_on_stability (newRafProgress true)).2.1 rfl

/-- C8: on the worked example — keys `['alpha']`, keyframes
`[{progress: 0.2, alpha: 0}, {progress: 0.5}, {progress: 0.8, alpha: 0.6}]`
— the compiler produces the dense alpha track
`[{0, 0}, {0.2, 0}, {0.8, 0.6}, {1, 0.6}]`, and the resolver returns the
claimed bounding pairs at progresses 0, 0.2, 0.21, 0.5 and 1. -/
theorem storyboard_worked_example :
    exampleStoryboard =
      [("alpha", [⟨0, 0⟩, ⟨1/5, 0⟩, ⟨4/5, 3/5⟩, ⟨1, 3/5⟩])] ∧
    VectorDomTimeline.getStartAndEndTimelineFromStoryboard exampleStoryboard
        "alpha" 0 = .ok ⟨0, 0⟩ ⟨1/5, 0⟩ ∧
    VectorDomTimeline.getStartAndEndTimelineFromStoryboard exampleStoryboard
        "alpha" (1/5) = .ok ⟨0, 0⟩ ⟨1/5, 0⟩ ∧
    VectorDomTimeline.getStartAndEndTimelineFromStoryboard exampleStoryboard
        "alpha" (21/100) = .ok ⟨1/5, 0⟩ ⟨4/5, 3/5⟩ ∧
    VectorDomTimeline.getStartAndEndTimelineFromStoryboard exampleStoryboard
        "alpha" (1/2) = .ok ⟨1/5, 0⟩ ⟨4/5, 3/5⟩ ∧
    VectorDomTimeline.getStartAndEndTimelineFromStoryboard exampleStoryboard
        "alpha" 1 = .ok ⟨4/5, 3/5⟩ ⟨1, 3/5⟩ := by
  norm_num [exampleStoryboard, exampleKeyframes,
    VectorDomTimeline.generateStoryboard, VectorDomTimeline.trackForKey,
    VectorDomTimeline.getStartAndEndTimelineFromStoryboard,
    VectorDomTimeline.findSegment, keyframeValue, sortTrack, orderedInsert,
    List.filterMap_cons, List.filterMap_nil, List.find?]

/-- C9: every reachable scheduler state has at most one outstanding platform
frame request. -/
theorem raf_single_pending_request {s : RafState} {w : World}
    (h : Reach s w) : w.pending.length ≤ 1 := by
  rcases reach_inv h with ⟨_, _, _, h3⟩ | ⟨_, h2⟩
  · rw [h3]; exact le_refl 1
  · rw [h2]; exact Nat.zero_le 1

/-- C9 witness: the state reached by constructing a scheduler with one
callback and starting it has at most one pending request. -/
theorem raf_single_pending_request_witness :
    (Raf.start (newRaf (some ⟨0, false⟩)) World.empty false 100
      100).w.pending.length ≤ 1 :=
  raf_single_pending_request
    (Reach.start false 100 100 (Reach.init (some ⟨0, false⟩)))

/-- C2 counterexample: on a tick where the first callback (id 1) throws, the
second registered callback (id 2) is not invoked — only `[1]` runs and the
exception escapes — refuting "the remaining registered callbacks for that
same tick are still invoked"; the next frame is pending nonetheless. -/
theorem throwing_task_aborts_tick :
    throwScenarioFrame.invoked = [1] ∧
    throwScenarioFrame.threw = true ∧
    throwScenarioFrame.s.callbacks.map Task.id = [1, 2] ∧
    throwScenarioFrame.w.pending = [1] := by
  norm_num [throwScenarioFrame, throwScenario, Raf.frameFire,
    Raf.animationLoop, Raf.tickBody, Raf.start, Raf.runTasks, Raf.watch,
    newRaf, World.empty]

/-- C2 (amended): a callback that throws during a tick is the last one
invoked on that tick — the callbacks registered after it are skipped and
`lastUpdateTime` is not advanced — but all callbacks stay registered and the
next platform frame was requested before the callbacks ran, so the loop
still runs on every future tick. -/
theorem throwing_task_spares_loop (s : RafState) (w : World)
    (pre post : List Task) (t : Task) (tNow tAfter : ℚ)
    (hrun : s.isRunningRaf = false)
    (hcb : s.callbacks = pre ++ t :: post)
    (hpre : ∀ x ∈ pre, x.throws = false)
    (ht : t.throws = true)
    (hrc : s.runCondition = none)
    (hlu : s.lastUpdateTime ≠ 0)
    (hel : (if s.fps = 0 then 0 else 1000 / s.fps) <
      tNow - s.lastUpdateTime) :
    (Raf.animationLoop s w tNow tAfter).invoked =
      pre.map Task.id ++ [t.id] ∧
    (Raf.animationLoop s w tNow tAfter).threw = true ∧
    (Raf.animationLoop s w tNow tAfter).s.callbacks = s.callbacks ∧
    (Raf.animationLoop s w tNow tAfter).s.lastUpdateTime =
      s.lastUpdateTime ∧
    (Raf.animationLoop s w tNow tAfter).w.pending =
      w.pending ++ [w.nextHandle] := by
  rw [animationLoop_not_running s w tNow tAfter hrun]
  have h := tickBody_throw
    { s with raf_ := some w.nextHandle, isRunningRaf := true }
    ⟨w.pending ++ [w.nextHandle], w.nextHandle + 1⟩ tNow tAfter
    pre t post hlu hel hcb hpre ht hrc
  refine ⟨h.1, h.2.1, h.2.2.1, h.2.2.2.1, ?_⟩
  rw [h.2.2.2.2]

/-- C2 witness: the amended theorem applied to `throwState` at times
116/116: callbacks 7 and 1 run, the tasks after the thrower are skipped,
and the next frame handle 1 is pending. -/
theorem throwing_task_spares_loop_witness :
    (Raf.animationLoop throwState ⟨[], 1⟩ 116 116).invoked =
      [Task.mk 7 false].map Task.id ++ [1] ∧
    (Raf.animationLoop throwState ⟨[], 1⟩ 116 116).threw = true ∧
    (Raf.animationLoop throwState ⟨[], 1⟩ 116 116).s.callbacks =
      throwState.callbacks ∧
    (Raf.animationLoop throwState ⟨[], 1⟩ 116 116).s.lastUpdateTime =
      throwState.lastUpdateTime ∧
    (Raf.animationLoop throwState ⟨[], 1⟩ 116 116).w.pending = [] ++ [1] :=
  throwing_task_spares_loop throwState ⟨[], 1⟩ [⟨7, false⟩] [⟨2, false⟩]
    ⟨1, true⟩ 116 116 rfl rfl (by decide) rfl rfl (by decide)
    (by norm_num [throwState])

/-- C4 counterexample: at 10 fps a tick arriving with a delta of exactly
100 ms — not below the 1000/10 ms threshold — is nevertheless skipped (the
source requires `elapsed > threshold` strictly): no callback is invoked and
`lastUpdateTime` is not advanced, though a callback is registered and the
next frame is re-requested. -/
theorem threshold_delta_tick_skipped :
    fpsScenarioFrame.invoked = [] ∧
    fpsScenarioFrame.s.lastUpdateTime = 100 ∧
    fpsScenarioFrame.s.callbacks.map Task.id = [1] ∧
    fpsScenarioFrame.w.pending = [1] := by
  norm_num [fpsScenarioFrame, fpsScenario, Raf.frameFire, Raf.animationLoop,
    Raf.tickBody, Raf.start, Raf.runTasks, Raf.setFps, newRaf, World.empty]

/-- C4 (amended): after `setFps(n)` with `n > 0`, a tick whose delta is at
or below the 1000/n ms threshold is skipped — no callbacks run and
`lastUpdateTime` stays put — while the platform frame is still re-requested;
a tick whose delta is strictly above the threshold invokes all callbacks (no
run condition, none throwing) and advances `lastUpdateTime`. -/
theorem setFps_throttles (s : RafState) (w : World) (n tNow tAfter : ℚ)
    (hn : 0 < n) (hfps : s.fps = n) (hrun : s.isRunningRaf = false)
    (hlu : s.lastUpdateTime ≠ 0) :
    (tNow - s.lastUpdateTime ≤ 1000 / n →
      (Raf.animationLoop s w tNow tAfter).invoked = [] ∧
      (Raf.animationLoop s w tNow tAfter).s.lastUpdateTime =
        s.lastUpdateTime ∧
      (Raf.animationLoop s w tNow tAfter).w.pending =
        w.pending ++ [w.nextHandle]) ∧
    (1000 / n < tNow - s.lastUpdateTime → s.runCondition = none →
      (∀ x ∈ s.callbacks, x.throws = false) →
      (Raf.animationLoop s w tNow tAfter).invoked =
        s.callbacks.map Task.id ∧
      (Raf.animationLoop s w tNow tAfter).s.lastUpdateTime = tAfter) := by
  have hne : s.fps ≠ 0 := by rw [hfps]; exact ne_of_gt hn
  have hthr : (if s.fps = 0 then (0 : ℚ) else 1000 / s.fps) = 1000 / n := by
    rw [if_neg hne, hfps]
  rw [animationLoop_not_running s w tNow tAfter hrun]
  constructor
  · intro hle
    have hle' : tNow - s.lastUpdateTime ≤
        (if s.fps = 0 then (0 : ℚ) else 1000 / s.fps) := by
      rw [hthr]; exact hle
    have h := tickBody_skip
      { s with raf_ := some w.nextHandle, isRunningRaf := true }
      ⟨w.pending ++ [w.nextHandle], w.nextHandle + 1⟩ tNow tAfter hlu hle'
    refine ⟨h.1, h.2.1, ?_⟩
    rw [h.2.2.1]
  · intro hgt hrc hok
    have hgt' : (if s.fps = 0 then (0 : ℚ) else 1000 / s.fps) <
        tNow - s.lastUpdateTime := by
      rw [hthr]; exact hgt
    have h := tickBody_exec
      { s with raf_ := some w.nextHandle, isRunningRaf := true }
      ⟨w.pending ++ [w.nextHandle], w.nextHandle + 1⟩ tNow tAfter hlu hgt'
      hrc hok
    exact ⟨h.1, h.2.1⟩

/-- C4 witness: the amended theorem applied to `fpsState` (10 fps, last tick
at 100): a tick at time 150 (delta 50 ≤ 100) is skipped with the next frame
pending, and a tick at 250 (delta 150 > 100) invokes the callback and
advances `lastUpdateTime` to 250. -/
theorem setFps_throttles_witness :
    ((Raf.animationLoop fpsState ⟨[], 1⟩ 150 150).invoked = [] ∧
      (Raf.animationLoop fpsState ⟨[], 1⟩ 150 150).s.lastUpdateTime =
        fpsState.lastUpdateTime ∧
      (Raf.animationLoop fpsState ⟨[], 1⟩ 150 150).w.pending =
        [] ++ [1]) ∧
    ((Raf.animationLoop fpsState ⟨[], 1⟩ 250 250).invoked =
        fpsState.callbacks.map Task.id ∧
      (Raf.animationLoop fpsState ⟨[], 1⟩ 250 250).s.lastUpdateTime = 250) :=
  ⟨(setFps_throttles fpsState ⟨[], 1⟩ 10 150 150 (by norm_num) rfl rfl
      (by norm_num [fpsState])).1 (by norm_num [fpsState]),
    (setFps_throttles fpsState ⟨[], 1⟩ 10 250 250 (by norm_num) rfl rfl
      (by norm_num [fpsState])).2 (by norm_num [fpsState]) rfl (by decide)⟩

/-- C6 counterexample: on a fresh engine (where the synchronous tick inside
`raf.start()` only records `lastUpdateTime`), `setCurrentProgress(0.123456)`
followed by an immediate read yields 0.123456 itself — not 0.123456 rounded
to the default precision 5 — and after one executed tick (the first platform
frame) the engine is still not settled: current differs from target and the
scheduler is still playing. -/
theorem setCurrentProgress_not_rounded_immediately :
    engineScenario.currentProgress = unroundedProgress ∧
    engineScenario.currentProgress ≠ mathf.toFixed unroundedProgress 5 ∧
    engineScenarioFrame.currentProgress ≠
      engineScenarioFrame.targetProgress ∧
    engineScenarioFrame.raf.isPlaying = true := by
  norm_num [engineScenario, engineScenarioFrame, engineSetCurrentProgress,
    engineStart, engineAnimationLoop, engineRafLoop, engineFrameFire,
    EngineState.toRP, RafProgress.rafLoop, newEngine, newRaf, World.empty,
    Raf.stop, unroundedProgress, mathf.clampAsProgress, mathf.ease,
    mathf.toFixed, mathf.floorToPrecision, mathf.ceilToPrecision, pow10,
    EASE.linear, round_eq]

/-- C6 (amended): for `p` in [0, 1] with the linear easing in effect,
`setCurrentProgress(p)` stores the clamped `p` as the target and calls
`raf.start()`; the immediately-read current progress is `p` itself —
unrounded — whenever that start performs no executed tick (raf already
playing, or its last-tick time still 0, or the synchronous tick's delta at
or below the fps threshold), and is the directionally-rounded value of `p`
(still not `p` rounded to `precision`) when the start executes a
synchronous tick; every executed engine tick after the call stores the
directionally-rounded value, and the second such tick stops the raf, so the
engine settles within two executed ticks rather than one. -/
theorem setCurrentProgress_read_and_settle (e : EngineState)
    (p tNow tAfter : ℚ) (hp0 : 0 ≤ p) (hp1 : p ≤ 1)
    (hf : e.easingFunction = EASE.linear) :
    (engineSetCurrentProgress e p tNow tAfter).targetProgress = p ∧
    (e.raf.isPlaying = true →
      (engineSetCurrentProgress e p tNow tAfter).currentProgress = p) ∧
    (e.raf.lastUpdateTime = 0 →
      (engineSetCurrentProgress e p tNow tAfter).currentProgress = p) ∧
    (e.raf.isPlaying = false → e.raf.isRunningRaf = false →
      tNow - e.raf.lastUpdateTime ≤
        (if e.raf.fps = 0 then (0 : ℚ) else 1000 / e.raf.fps) →
      (engineSetCurrentProgress e p tNow tAfter).currentProgress = p) ∧
    (e.raf.isPlaying = false → e.raf.isRunningRaf = false →
      e.raf.lastUpdateTime ≠ 0 →
      (if e.raf.fps = 0 then (0 : ℚ) else 1000 / e.raf.fps) <
        tNow - e.raf.lastUpdateTime →
      (engineSetCurrentProgress e p tNow tAfter).currentProgress =
        specTickValue EASE.linear p p 1 e.precision) ∧
    (engineRafLoop
        (engineSetCurrentProgress e p tNow tAfter)).currentProgress =
      specTickValue EASE.linear p p 1 e.precision ∧
    (engineRafLoop (engineRafLoop
        (engineSetCurrentProgress e p tNow tAfter))).raf.isPlaying =
      false := by
  have hclamp : mathf.clampAsProgress p = p := by
    unfold mathf.clampAsProgress
    rw [min_eq_right hp1, max_eq_right hp0]
  have hE : engineSetCurrentProgress e p tNow tAfter =
      engineStart (engineWithProgress e p) false tNow tAfter := by
    simp only [engineSetCurrentProgress, engineWithProgress, hclamp]
  have hk := engineStart_keeps (engineWithProgress e p) false tNow tAfter
  have hk1 : (engineStart (engineWithProgress e p) false
      tNow tAfter).targetProgress = p := hk.1
  have hk2 : (engineStart (engineWithProgress e p) false
      tNow tAfter).easeAmount = 1 := hk.2.1
  have hk3 : (engineStart (engineWithProgress e p) false
      tNow tAfter).easingFunction = e.easingFunction := hk.2.2.1
  have hk4 : (engineStart (engineWithProgress e p) false
      tNow tAfter).precision = e.precision := hk.2.2.2.1
  have hk5 : (engineStart (engineWithProgress e p) false
      tNow tAfter).currentProgress = p ∨
     (engineStart (engineWithProgress e p) false
      tNow tAfter).currentProgress =
        specTickValue e.easingFunction p p 1 e.precision := hk.2.2.2.2
  have h1 : (engineSetCurrentProgress e p tNow tAfter).targetProgress =
      p := by rw [hE]; exact hk1
  have h2 : (engineSetCurrentProgress e p tNow tAfter).easeAmount =
      1 := by rw [hE]; exact hk2
  have h3 : (engineSetCurrentProgress e p tNow tAfter).easingFunction =
      EASE.linear := by rw [hE, hk3]; exact hf
  have h4 : (engineSetCurrentProgress e p tNow tAfter).precision =
      e.precision := by rw [hE]; exact hk4
  have h5 : (engineSetCurrentProgress e p tNow tAfter).currentProgress = p ∨
      (engineSetCurrentProgress e p tNow tAfter).currentProgress =
        specTickValue e.easingFunction p p 1 e.precision := by
    rw [hE]; exact hk5
  have h6 : (engineRafLoop
      (engineSetCurrentProgress e p tNow tAfter)).currentProgress =
      specTickValue EASE.linear p p 1 e.precision := by
    rw [(engineRafLoop_keeps _).2.2.2.2, h1, h2, h3, h4]
    rcases h5 with hc | hc <;> rw [hc]
    rw [hf]
    exact specTickValue_linear_one _ p _
  refine ⟨h1, ?_, ?_, ?_, ?_, h6, ?_⟩
  · intro hp2
    rw [hE, engineStart_playing (engineWithProgress e p) tNow tAfter hp2]
    rfl
  · intro h0
    rw [hE, engineStart_zero_time (engineWithProgress e p) tNow tAfter h0]
    rfl
  · intro hp2 hr hle
    rw [hE, engineStart_skip (engineWithProgress e p) tNow tAfter hp2 hr hle]
    rfl
  · intro hp2 hr hlu hgt
    rw [hE, engineStart_sync_exec (engineWithProgress e p) tNow tAfter hp2
      hr hlu hgt]
    show specTickValue e.easingFunction p p 1 e.precision =
      specTickValue EASE.linear p p 1 e.precision
    rw [hf]
  · have k := engineRafLoop_keeps (engineSetCurrentProgress e p tNow tAfter)
    refine engineRafLoop_settles _ p ?_ ?_ ?_ ?_
    · rw [k.1, h1]
    · rw [k.2.1, h2]
    · rw [k.2.2.1, h3]
    · rw [k.2.2.2.1, h4, h6]

/-- C6 witness: the amended theorem at `p = 1`, start time 100, on a fresh
engine: the target and the immediate read are 1 and the second engine tick
stops the raf. -/
theorem setCurrentProgress_read_and_settle_witness :
    (engineSetCurrentProgress newEngine 1 100 100).targetProgress = 1 ∧
    (engineSetCurrentProgress newEngine 1 100 100).currentProgress = 1 ∧
    (engineRafLoop (engineRafLoop
      (engineSetCurrentProgress newEngine 1 100 100))).raf.isPlaying =
      false :=
  ⟨(setCurrentProgress_read_and_settle newEngine 1 100 100 (by decide)
      (by decide) rfl).1,
    (setCurrentProgress_read_and_settle newEngine 1 100 100 (by decide)
      (by decide) rfl).2.2.1 rfl,
    (setCurrentProgress_read_and_settle newEngine 1 100 100 (by decide)
      (by decide) rfl).2.2.2.2.2.2⟩

/-- C10 counterexample: after `start()` at time 100, `lastUpdateTime` is
already 100 (not 0) when the very first platform frame arrives at time 116,
and that first frame invokes the registered callback with delta 16 —
refuting "the very first platform frame callback never invokes any
registered callback and computes no delta". -/
theorem first_frame_already_runs_callbacks :
    firstFrameScenario.s.lastUpdateTime = 100 ∧
    firstFrameScenarioFrame.invoked = [3] ∧
    firstFrameScenarioFrame.s.delta = 16 := by
  norm_num [firstFrameScenarioFrame, firstFrameScenario, Raf.frameFire,
    Raf.animationLoop, Raf.tickBody, Raf.start, Raf.runTasks, newRaf,
    World.empty]

/-- C10 (amended): the tick that only records `lastUpdateTime` is the
synchronous one inside `start()` itself (run while `lastUpdateTime` is its
initial 0): it invokes no callbacks.  A `start()` at a nonzero clock time
therefore leaves `lastUpdateTime` set, so the very first platform frame
after it already computes a delta and invokes the registered callback —
registered work runs on the first platform frame, not the second. -/
theorem start_tick_records_time_only (t : Task) (t0 t1 : ℚ)
    (h0 : t0 ≠ 0) (h01 : t0 < t1) (hth : t.throws = false) :
    (Raf.start (newRaf (some t)) World.empty false t0 t0).invoked = [] ∧
    (Raf.start (newRaf (some t)) World.empty false t0
      t0).s.lastUpdateTime = t0 ∧
    (Raf.frameFire (Raf.start (newRaf (some t)) World.empty false t0 t0).s
      (Raf.start (newRaf (some t)) World.empty false t0 t0).w
      0 t1 t1 t1).invoked = [t.id] ∧
    (Raf.frameFire (Raf.start (newRaf (some t)) World.empty false t0 t0).s
      (Raf.start (newRaf (some t)) World.empty false t0 t0).w
      0 t1 t1 t1).s.delta = t1 - t0 := by
  have hpos : (0 : ℚ) < t1 - t0 := sub_pos.mpr h01
  refine ⟨?_, ?_, ?_, ?_⟩ <;>
    simp [Raf.start, Raf.frameFire, Raf.animationLoop, Raf.tickBody,
      Raf.runTasks, newRaf, World.empty, h0, hth, hpos]

/-- C10 witness: the amended theorem with a non-throwing callback of id 3,
start at time 100 and first frame at time 116. -/
theorem start_tick_records_time_only_witness :
    (Raf.start (newRaf (some ⟨3, false⟩)) World.empty false 100
      100).invoked = [] ∧
    (Raf.start (newRaf (some ⟨3, false⟩)) World.empty false 100
      100).s.lastUpdateTime = 100 ∧
    (Raf.frameFire (Raf.start (newRaf (some ⟨3, false⟩)) World.empty false
        100 100).s
      (Raf.start (newRaf (some ⟨3, false⟩)) World.empty false 100 100).w
      0 116 116 116).invoked = [Task.mk 3 false |>.id] ∧
    (Raf.frameFire (Raf.start (newRaf (some ⟨3, false⟩)) World.empty false
        100 100).s
      (Raf.start (newRaf (some ⟨3, false⟩)) World.empty false 100 100).w
      0 116 116 116).s.delta = 116 - 100 :=
  start_tick_records_time_only ⟨3, false⟩ 100 116 (by decide) (by decide)
    rfl

end Degu
